import Mathlib

/-!
Verification development for the PolyPin arbitrage bot core
(`src/arbitrage_bot/`).  The Python modules `orderbook.py`, `trading.py`,
`matching.py`, `logging_utils.py` and `strategy.py` are shallowly embedded
below: prices, sizes and timestamps are modelled as rationals (`ℚ`), Python
`None` as `Option`, Python dictionaries as association lists or explicit
record fields, and raised exceptions as an explicit error constructor.
-/

set_option maxHeartbeats 1000000

namespace PolyPin

/-- The arbitrage trigger ratio from config.py line 22 (1.12). -/
def ARB_RATIO_BOUND : ℚ := 28 / 25

/-! ### Order-book model (`orderbook.py`)

An order-book level `{price, size}`; levels whose `price`/`size` fields fail
float conversion are dropped at parse time in the Python code, so the
embedding works with already-numeric levels. -/

structure Level where
  price : ℚ
  size : ℚ
deriving DecidableEq, Repr

structure Book where
  asks : List Level
  bids : List Level
deriving DecidableEq, Repr

/-- The `1e-9` slack used by `estimate_fill_on_bids`. -/
def FILL_EPS : ℚ := 1 / 1000000000

/-- Bid levels qualifying for a fill walk:
`price >= min_price and price > 0 and size > 0` (orderbook.py line 78). -/
def qualifyingBids (bids : List Level) (minPrice : ℚ) : List Level :=
  bids.filter fun l => decide (minPrice ≤ l.price) && decide (0 < l.price) && decide (0 < l.size)

/-- Descending-price order used by `levels.sort(key=..., reverse=True)`. -/
def bidRel (a b : Level) : Prop := b.price ≤ a.price

instance : DecidableRel bidRel := fun a b => inferInstanceAs (Decidable (b.price ≤ a.price))

instance : IsTotal Level bidRel := ⟨fun a b => le_total b.price a.price⟩

instance : IsTrans Level bidRel := ⟨fun _ _ _ h1 h2 => le_trans h2 h1⟩

/-- The walk of orderbook.py lines 84-98: consume levels until the target
notional is reached, taking whole levels while `level_usd <= need + 1e-9`
and otherwise only the fractional `need_usd / price` shares. -/
def fillLoop (target : ℚ) : List Level → ℚ → ℚ → ℚ × ℚ
  | [], usd, sh => (usd, sh)
  | l :: ls, usd, sh =>
    if target ≤ usd then (usd, sh)
    else
      let levelUsd := l.price * l.size
      let need := target - usd
      if levelUsd ≤ need + FILL_EPS then
        fillLoop target ls (usd + levelUsd) (sh + l.size)
      else
        (usd + need, sh + need / l.price)

/-- `estimate_fill_on_bids(book, min_price, target_usd)` (orderbook.py
lines 68-105): returns `(filled_usd, filled_shares, weighted_avg)`. -/
def estimate_fill_on_bids (book : Book) (minPrice targetUsd : ℚ) : ℚ × ℚ × Option ℚ :=
  let levels := qualifyingBids book.bids minPrice
  if levels = [] then (0, 0, none)
  else
    let sorted := levels.insertionSort bidRel
    let res := fillLoop targetUsd sorted 0 0
    if 0 < res.2 then (res.1, res.2, some (res.1 / res.2)) else (0, 0, none)

/-- `summarize_liquidity_to_price(book, max_price)` (orderbook.py lines
47-65): totals over ask levels with `price <= max_price and price > 0 and
size > 0`; `none` when no positive totals result. -/
def summarize_liquidity_to_price (book : Book) (maxPrice : ℚ) : Option (ℚ × ℚ × ℚ) :=
  let qual := book.asks.filter fun l =>
    decide (l.price ≤ maxPrice) && decide (0 < l.price) && decide (0 < l.size)
  let totalShares := (qual.map fun l => l.size).sum
  let totalUsd := (qual.map fun l => l.price * l.size).sum
  if 0 < totalShares ∧ 0 < totalUsd then some (totalShares, totalUsd, totalUsd / totalShares)
  else none

/-- `get_best_bid_price(book)` (orderbook.py lines 108-122). -/
def get_best_bid_price (book : Book) : Option ℚ :=
  let best := book.bids.foldl (fun acc l => if 0 < l.size ∧ acc < l.price then l.price else acc) 0
  if 0 < best then some best else none

/-- The fill walk never overshoots the target by more than the `1e-9`
slack, provided the accumulator already satisfies the bound. -/
theorem fillLoop_le (target : ℚ) :
    ∀ (ls : List Level) (usd sh : ℚ), usd ≤ target + FILL_EPS →
      (fillLoop target ls usd sh).1 ≤ target + FILL_EPS := by
  intro ls
  induction ls with
  | nil => intro usd sh h; simpa [fillLoop] using h
  | cons l ls ih =>
    intro usd sh h
    by_cases hle : target ≤ usd
    · simpa [fillLoop, hle] using h
    · by_cases hlvl : l.price * l.size ≤ target - usd + FILL_EPS
      · have : usd + l.price * l.size ≤ target + FILL_EPS := by linarith
        simpa [fillLoop, hle, hlvl] using ih (usd + l.price * l.size) (sh + l.size) this
      · simp only [fillLoop, hle, hlvl, if_false, if_neg hle, if_neg hlvl]
        have : usd + (target - usd) ≤ target + FILL_EPS := by
          have : (0 : ℚ) < FILL_EPS := by norm_num [FILL_EPS]
          linarith
        simpa using this

theorem qualifyingBids_sorted (bids : List Level) (minPrice : ℚ) :
    ((qualifyingBids bids minPrice).insertionSort bidRel).Sorted bidRel :=
  List.sorted_insertionSort bidRel _

/-- The walk either consumes every remaining level in full (exhausts the
book) or stops having reached the target. -/
theorem fillLoop_complete (target : ℚ) :
    ∀ (ls : List Level) (usd sh : ℚ),
      (fillLoop target ls usd sh).1 = usd + (ls.map fun l => l.price * l.size).sum ∨
        target ≤ (fillLoop target ls usd sh).1 := by
  intro ls
  induction ls with
  | nil => intro usd sh; left; simp [fillLoop]
  | cons l ls ih =>
    intro usd sh
    by_cases hle : target ≤ usd
    · right; simp [fillLoop, hle]
    · by_cases hlvl : l.price * l.size ≤ target - usd + FILL_EPS
      · rcases ih (usd + l.price * l.size) (sh + l.size) with h | h
        · left
          simp only [fillLoop, if_neg hle, if_pos hlvl, List.map_cons, List.sum_cons]
          rw [h]; ring
        · right
          simpa [fillLoop, hle, hlvl] using h
      · right
        simp only [fillLoop, if_neg hle, if_neg hlvl]
        linarith

/-- C6: `estimate_fill_on_bids` never returns `filled_usd` above
`target_usd + 1e-9`; the walk runs over the qualifying bid levels sorted in
descending price order and either consumes the whole qualifying depth or
reaches the target (fractional take only at the stopping level); the zero
estimate is returned when no bid level qualifies; on levels
`[(0.9,10),(0.8,10)]` with `target_usd = 9` it returns
`(9.0, 10.0, avg 0.9)` entirely from the best level, and on `[(0.9,10)]`
with `target_usd = 4.5` it takes only the fractional `4.5/0.9 = 5` shares. -/
theorem C6_estimate_bid_fill (book : Book) (minPrice targetUsd : ℚ)
    (htarget : 0 ≤ targetUsd) :
    (estimate_fill_on_bids book minPrice targetUsd).1 ≤ targetUsd + FILL_EPS ∧
      ((qualifyingBids book.bids minPrice).insertionSort bidRel).Sorted bidRel ∧
      ((estimate_fill_on_bids book minPrice targetUsd).1 =
          ((qualifyingBids book.bids minPrice).map fun l => l.price * l.size).sum ∨
        targetUsd ≤ (estimate_fill_on_bids book minPrice targetUsd).1 ∨
        estimate_fill_on_bids book minPrice targetUsd = (0, 0, none)) ∧
      (qualifyingBids book.bids minPrice = [] →
        estimate_fill_on_bids book minPrice targetUsd = (0, 0, none)) ∧
      estimate_fill_on_bids ⟨[], [⟨9/10, 10⟩, ⟨8/10, 10⟩]⟩ (1/2) 9 = (9, 10, some (9/10)) ∧
      estimate_fill_on_bids ⟨[], [⟨9/10, 10⟩]⟩ (1/2) (9/2) = (9/2, 5, some (9/10)) := by
  have heps : (0 : ℚ) < FILL_EPS := by norm_num [FILL_EPS]
  refine ⟨?_, List.sorted_insertionSort bidRel _, ?_, ?_, ?_, ?_⟩
  · by_cases h1 : qualifyingBids book.bids minPrice = []
    · simp only [estimate_fill_on_bids, if_pos h1]
      linarith
    · by_cases h2 :
        0 < (fillLoop targetUsd ((qualifyingBids book.bids minPrice).insertionSort bidRel) 0 0).2
      · have hb := fillLoop_le targetUsd
          ((qualifyingBids book.bids minPrice).insertionSort bidRel) 0 0 (by linarith)
        simpa [estimate_fill_on_bids, h1, h2] using hb
      · simp only [estimate_fill_on_bids, if_neg h1, if_neg h2]
        linarith
  · by_cases h1 : qualifyingBids book.bids minPrice = []
    · right; right; simp [estimate_fill_on_bids, h1]
    · by_cases h2 :
        0 < (fillLoop targetUsd ((qualifyingBids book.bids minPrice).insertionSort bidRel) 0 0).2
      · rcases fillLoop_complete targetUsd
            ((qualifyingBids book.bids minPrice).insertionSort bidRel) 0 0 with h | h
        · left
          have hperm : List.Perm
              (((qualifyingBids book.bids minPrice).insertionSort bidRel).map
                (fun l => l.price * l.size))
              ((qualifyingBids book.bids minPrice).map (fun l => l.price * l.size)) :=
            (List.perm_insertionSort bidRel _).map _
          simp only [estimate_fill_on_bids, if_neg h1, if_pos h2]
          rw [h, hperm.sum_eq]
          ring
        · right; left
          simpa [estimate_fill_on_bids, h1, h2] using h
      · right; right; simp [estimate_fill_on_bids, h1, h2]
  · intro h1
    simp [estimate_fill_on_bids, h1]
  · norm_num [estimate_fill_on_bids, qualifyingBids, fillLoop, FILL_EPS, bidRel,
      List.insertionSort, List.orderedInsert, List.filter, List.cons_ne_nil]
  · norm_num [estimate_fill_on_bids, qualifyingBids, fillLoop, FILL_EPS, bidRel,
      List.insertionSort, List.orderedInsert, List.filter]

/-- Witness for `C6_estimate_bid_fill` at a concrete book and target. -/
theorem C6_estimate_bid_fill_witness :
    (0 : ℚ) ≤ 9 ∧
      (estimate_fill_on_bids ⟨[], [⟨9/10, 10⟩, ⟨8/10, 10⟩]⟩ (1/2) 9).1 ≤ 9 + FILL_EPS :=
  ⟨by norm_num, (C6_estimate_bid_fill ⟨[], [⟨9/10, 10⟩, ⟨8/10, 10⟩]⟩ (1/2) 9 (by norm_num)).1⟩

/-! ### Cooldown tracker (`trading.py` lines 87-105)

`state.recent_trades[cooldown_key]` is a list of `{timestamp, price}`
records; `check_trade_cooldown` first replaces it with the entries younger
than `cooldown_seconds` (120) and then blocks (returns `False`) as soon as
one kept entry has `current_price >= trade["price"]`. -/

structure CoolEntry where
  timestamp : ℚ
  price : ℚ
deriving DecidableEq, Repr

/-- `[trade for trade in trades if now - trade["timestamp"] < cooldown_seconds]`. -/
def pruneTrades (now : ℚ) (trades : List CoolEntry) : List CoolEntry :=
  trades.filter fun t => decide (now - t.timestamp < 120)

/-- `check_trade_cooldown(state, key, current_price)`: the returned `Bool`
is the allow/deny verdict and the list is the pruned per-key state the
function writes back. -/
def check_trade_cooldown (now : ℚ) (trades : List CoolEntry) (currentPrice : ℚ) :
    Bool × List CoolEntry :=
  let kept := pruneTrades now trades
  (kept.all fun t => decide (currentPrice < t.price), kept)

/-- `_append_trade_cooldown(state, key, price)` (trading.py lines 87-88). -/
def append_trade_cooldown (now : ℚ) (trades : List CoolEntry) (price : ℚ) : List CoolEntry :=
  trades ++ [⟨now, price⟩]

/-- C7: the cooldown check prunes entries at least 120 time-units old, then
blocks iff some remaining entry has recorded price `<=` the current price;
a recorded trade at 0.50 blocks a check at 0.50 or 0.60 within the window,
a check at 0.49 is allowed, and an out-of-window entry never blocks. -/
theorem C7_cooldown_check (now currentPrice : ℚ) (trades : List CoolEntry) :
    ((check_trade_cooldown now trades currentPrice).1 = false ↔
        ∃ t ∈ trades, now - t.timestamp < 120 ∧ t.price ≤ currentPrice) ∧
      (check_trade_cooldown now trades currentPrice).2 = pruneTrades now trades ∧
      (check_trade_cooldown 100 [⟨50, 1/2⟩] (1/2)).1 = false ∧
      (check_trade_cooldown 100 [⟨50, 1/2⟩] (6/10)).1 = false ∧
      (check_trade_cooldown 100 [⟨50, 1/2⟩] (49/100)).1 = true ∧
      (∀ p : ℚ, (check_trade_cooldown 200 [⟨50, 1/2⟩] p).1 = true) := by
  refine ⟨?_, rfl,
    by norm_num [check_trade_cooldown, pruneTrades, List.filter, List.all],
    by norm_num [check_trade_cooldown, pruneTrades, List.filter, List.all],
    by norm_num [check_trade_cooldown, pruneTrades, List.filter, List.all], ?_⟩
  · simp only [check_trade_cooldown, pruneTrades, List.all_eq_false, List.mem_filter,
      decide_eq_true_eq, not_lt]
    constructor
    · rintro ⟨t, ⟨h1, h2⟩, h3⟩; exact ⟨t, h1, h2, h3⟩
    · rintro ⟨t, h1, h2, h3⟩; exact ⟨t, ⟨h1, h2⟩, h3⟩
  · intro p
    norm_num [check_trade_cooldown, pruneTrades, List.filter, List.all]

/-! ### Execution gateway (`trading.py` lines 108-161)

`place_polymarket_trade` validates the price, delegates to the broker and
classifies the outcome.  A failure whose lowercased message contains
`"lower than the minimum"` is reclassified `SKIPPED_MIN_SIZE` and treated
as successful for cooldown/audit purposes.  The broker call is external;
it is modelled as a `BrokerResult` input. -/

/-- Case-insensitive substring test: does `needle` start at the head of
`hay`? -/
def chunkAtStart : List Char → List Char → Bool
  | [], _ => true
  | _ :: _, [] => false
  | a :: as, b :: bs => a == b && chunkAtStart as bs

/-- Does `needle` occur contiguously anywhere in `hay`? -/
def containsChunk (needle : List Char) : List Char → Bool
  | [] => needle.isEmpty
  | b :: bs => chunkAtStart needle (b :: bs) || containsChunk needle bs

/-- The venue's minimum-size signature string searched for in
`str(exc).lower()` (trading.py line 141). -/
def MIN_SIZE_SIGNATURE : String := "lower than the minimum"

/-- `"lower than the minimum" in str(exc).lower()`. -/
def msgIndicatesMinSize (msg : String) : Bool :=
  containsChunk MIN_SIZE_SIGNATURE.toList (msg.toList.map Char.toLower)

inductive TradeStatus
  | SUCCESS
  | SKIPPED_MIN_SIZE
  | FAILURE
deriving DecidableEq, Repr

/-- Result of the external order-placement capability
(`client.post_order`): either the order posts or an exception with a
message is raised. -/
inductive BrokerResult
  | posted
  | failed (msg : String)
deriving DecidableEq, Repr

structure PlaceOutcome where
  status : TradeStatus
  cooldownTrades : List CoolEntry
  auditTaskScheduled : Bool
deriving DecidableEq, Repr

/-- `place_polymarket_trade(state, trade_details)` (trading.py lines
108-161), for a trade on an initialized client.  The `try` body raises a
`ValueError` for a price outside `(0,1)` before the broker is reached;
any raised message is then matched against the minimum-size signature.
On a cooldown-eligible outcome the cooldown entry is appended and the
deferred `save_trade_log` task is scheduled. -/
def place_polymarket_trade (now price : ℚ) (broker : BrokerResult)
    (trades : List CoolEntry) : PlaceOutcome :=
  let attempt : Except String Unit :=
    if 0 < price ∧ price < 1 then
      match broker with
      | BrokerResult.posted => Except.ok ()
      | BrokerResult.failed m => Except.error m
    else Except.error ("Invalid Polymarket price")
  match attempt with
  | Except.ok _ =>
    ⟨TradeStatus.SUCCESS, append_trade_cooldown now trades price, true⟩
  | Except.error m =>
    if msgIndicatesMinSize m then
      ⟨TradeStatus.SKIPPED_MIN_SIZE, append_trade_cooldown now trades price, true⟩
    else
      ⟨TradeStatus.FAILURE, trades, false⟩

/-- C8: a broker failure whose message indicates the order was below the
venue's minimum size is reclassified `SKIPPED_MIN_SIZE`, records the
cooldown entry and schedules the deferred audit task; every other broker
failure is `FAILURE`, records no cooldown entry and schedules no task. -/
theorem C8_min_size_reclassification (now price : ℚ) (msg : String)
    (trades : List CoolEntry) (hvalid : 0 < price ∧ price < 1) :
    (msgIndicatesMinSize msg = true →
        place_polymarket_trade now price (BrokerResult.failed msg) trades =
          ⟨TradeStatus.SKIPPED_MIN_SIZE, append_trade_cooldown now trades price, true⟩) ∧
      (msgIndicatesMinSize msg = false →
        place_polymarket_trade now price (BrokerResult.failed msg) trades =
          ⟨TradeStatus.FAILURE, trades, false⟩) := by
  constructor
  · intro hmin
    simp [place_polymarket_trade, hvalid, hmin]
  · intro hmin
    simp [place_polymarket_trade, hvalid, hmin]

/-- Witness for `C8_min_size_reclassification`: a minimum-size failure
message and an unrelated failure message at price 0.5. -/
theorem C8_min_size_reclassification_witness :
    place_polymarket_trade 0 (1/2)
        (BrokerResult.failed ("Order size is lower than the minimum: 5")) [] =
      ⟨TradeStatus.SKIPPED_MIN_SIZE, [⟨0, 1/2⟩], true⟩ ∧
      place_polymarket_trade 0 (1/2) (BrokerResult.failed ("insufficient balance")) [] =
        ⟨TradeStatus.FAILURE, [], false⟩ :=
  ⟨(C8_min_size_reclassification 0 (1/2) ("Order size is lower than the minimum: 5") []
      (by norm_num)).1 (by rfl),
    (C8_min_size_reclassification 0 (1/2) ("insufficient balance") []
      (by norm_num)).2 (by rfl)⟩

/-! ### Paper positions (`trading.py` lines 164-228)

`state.paper_positions` maps an instrument (token) id to the position
dict.  `register_paper_position` inserts only when the key is absent;
`paper_sell_strategy` closes a position only at take-profit. -/

structure PaperPosition where
  entry_ts : ℚ
  entry_price : Option ℚ
  target_usd : Option ℚ
  shares : Option ℚ
deriving DecidableEq, Repr

structure ClosedTrade where
  exit_price : ℚ
  shares : ℚ
  pnl : ℚ
deriving DecidableEq, Repr

/-- `register_paper_position(state, token_id, position)` (trading.py lines
224-228): insert only if the key is absent. -/
def register_paper_position (positions : List (String × PaperPosition))
    (tokenId : String) (pos : PaperPosition) : List (String × PaperPosition) :=
  if (positions.lookup tokenId).isSome then positions else (tokenId, pos) :: positions

/-- One position's take-profit decision inside the `paper_sell_strategy`
loop body (trading.py lines 172-217): `none` keeps the position for this
tick, `some` closes it with the realized fill. -/
def paper_close_decision (betAmount tpAbs : ℚ) (book : Option Book)
    (pos : PaperPosition) : Option ClosedTrade :=
  match book with
  | none => none
  | some b =>
    match pos.entry_price with
    | none => none
    | some entry =>
      let target := pos.target_usd.getD betAmount
      let tp := min (999/1000 : ℚ) (entry + tpAbs)
      match get_best_bid_price b with
      | none => none
      | some bb =>
        if bb < tp then none
        else
          match estimate_fill_on_bids b tp target with
          | (_, _, none) => none
          | (u, s, some w) =>
            if u ≤ 0 ∨ s ≤ 0 ∨ w = 0 then none
            else some ⟨w, s, u - entry * s⟩

/-- One `paper_sell_strategy` tick over the position map: positions whose
close decision fires are removed and logged; all others are kept. -/
def paper_sell_tick (betAmount tpAbs : ℚ) (books : String → Option Book)
    (positions : List (String × PaperPosition)) :
    List (String × PaperPosition) × List (String × ClosedTrade) :=
  (positions.filter fun kv => (paper_close_decision betAmount tpAbs (books kv.1) kv.2).isNone,
    positions.filterMap fun kv =>
      (paper_close_decision betAmount tpAbs (books kv.1) kv.2).map fun c => (kv.1, c))

/-- A firing close decision implies all take-profit conditions held: a
book was fetched, the entry price was set, the best bid reached the
take-profit price and the bid-walk fill was strictly positive. -/
theorem paper_close_decision_tp (betAmount tpAbs : ℚ) (book : Option Book)
    (pos : PaperPosition) (h : (paper_close_decision betAmount tpAbs book pos).isSome) :
    ∃ b entry bb,
      book = some b ∧ pos.entry_price = some entry ∧
        get_best_bid_price b = some bb ∧
        min (999/1000 : ℚ) (entry + tpAbs) ≤ bb ∧
        0 < (estimate_fill_on_bids b (min (999/1000 : ℚ) (entry + tpAbs))
              (pos.target_usd.getD betAmount)).1 ∧
        0 < (estimate_fill_on_bids b (min (999/1000 : ℚ) (entry + tpAbs))
              (pos.target_usd.getD betAmount)).2.1 := by
  rcases hbook : book with _ | b
  · rw [hbook] at h; simp [paper_close_decision] at h
  · rcases hentry : pos.entry_price with _ | entry
    · rw [hbook] at h; simp [paper_close_decision, hentry] at h
    · rcases hbb : get_best_bid_price b with _ | bb
      · rw [hbook] at h; simp [paper_close_decision, hentry, hbb] at h
      · by_cases hlt : bb < min (999/1000 : ℚ) (entry + tpAbs)
        · rw [hbook] at h
          simp [paper_close_decision, hentry, hbb, hlt] at h
        · rcases hest : estimate_fill_on_bids b (min (999/1000 : ℚ) (entry + tpAbs))
              (pos.target_usd.getD betAmount) with ⟨u, s, w⟩
          rcases w with _ | w
          · rw [hbook] at h
            simp [paper_close_decision, hentry, hbb, hlt, hest] at h
          · by_cases hz : u ≤ 0 ∨ s ≤ 0 ∨ w = 0
            · rw [hbook] at h
              simp [paper_close_decision, hentry, hbb, hlt, hest, hz] at h
            · push_neg at hz
              exact ⟨b, entry, bb, rfl, rfl, hbb, not_lt.mp hlt,
                by rw [hest]; exact hz.1, by rw [hest]; exact hz.2.1⟩

/-- C10: at most one open paper position exists per instrument.
Registering over an existing position leaves the map unchanged (the new
registration is discarded), registering a fresh instrument creates its
single entry, a kept position survives the monitor tick exactly when its
close decision does not fire, and any removal happens through a firing
take-profit close decision. -/
theorem C10_paper_position_invariant (positions : List (String × PaperPosition))
    (tokenId : String) (pos : PaperPosition) (betAmount tpAbs : ℚ)
    (books : String → Option Book) :
    ((positions.lookup tokenId).isSome →
        register_paper_position positions tokenId pos = positions) ∧
      (positions.lookup tokenId = none →
        (register_paper_position positions tokenId pos).lookup tokenId = some pos) ∧
      (∀ kv ∈ positions,
        (kv ∈ (paper_sell_tick betAmount tpAbs books positions).1 ↔
          (paper_close_decision betAmount tpAbs (books kv.1) kv.2).isNone)) ∧
      (∀ kv ∈ positions,
        kv ∉ (paper_sell_tick betAmount tpAbs books positions).1 →
          ∃ b entry bb,
            books kv.1 = some b ∧ kv.2.entry_price = some entry ∧
              get_best_bid_price b = some bb ∧
              min (999/1000 : ℚ) (entry + tpAbs) ≤ bb ∧
              0 < (estimate_fill_on_bids b (min (999/1000 : ℚ) (entry + tpAbs))
                    (kv.2.target_usd.getD betAmount)).1 ∧
              0 < (estimate_fill_on_bids b (min (999/1000 : ℚ) (entry + tpAbs))
                    (kv.2.target_usd.getD betAmount)).2.1) := by
  refine ⟨?_, ?_, ?_, ?_⟩
  · intro h
    simp [register_paper_position, h]
  · intro h
    simp [register_paper_position, h, List.lookup]
  · intro kv hkv
    simp [paper_sell_tick, List.mem_filter, hkv]
  · intro kv hkv hnot
    have hsome : (paper_close_decision betAmount tpAbs (books kv.1) kv.2).isSome := by
      by_contra hcontra
      exact hnot (List.mem_filter.mpr ⟨hkv, by
        simpa [Option.isNone_iff_eq_none, Option.not_isSome_iff_eq_none] using hcontra⟩)
    exact paper_close_decision_tp betAmount tpAbs (books kv.1) kv.2 hsome

/-! ### Order book cache (`orderbook.py` lines 10-44)

`ORDERBOOK_CACHE` maps `token_id` to `(book, fetched_at)`; TTL is 2
time-units.  The network is modelled as the per-variant response list:
`none` for a transport error / non-200 response, `some r` for a JSON
payload, valid only when it carries both `asks` and `bids` keys. -/

/-- A fetched JSON payload: validity requires both the `asks` and `bids`
keys (orderbook.py line 37). -/
structure FetchResp where
  hasAsks : Bool
  hasBids : Bool
  book : Book
deriving DecidableEq, Repr

/-- The variant loop of orderbook.py lines 32-41: accept the first
response that is a dict with both `asks` and `bids`. -/
def firstValidBook : List (Option FetchResp) → Option Book
  | [] => none
  | none :: rest => firstValidBook rest
  | some r :: rest =>
    if r.hasAsks && r.hasBids then some r.book else firstValidBook rest

/-- `fetch_order_book(token_id)` (orderbook.py lines 14-44): returns the
result, the cache after the call, and whether the network was used. -/
def fetch_order_book (tokenId : String) (now : ℚ)
    (cache : List (String × Book × ℚ)) (responses : List (Option FetchResp)) :
    Option Book × List (String × Book × ℚ) × Bool :=
  if tokenId = "" then (none, cache, false)
  else
    match cache.lookup tokenId with
    | some bt =>
      if now - bt.2 < 2 then (some bt.1, cache, false)
      else
        match firstValidBook responses with
        | some b => (some b, (tokenId, b, now) :: cache, true)
        | none => (none, cache, true)
    | none =>
      match firstValidBook responses with
      | some b => (some b, (tokenId, b, now) :: cache, true)
      | none => (none, cache, true)

/-- No variant yields a valid book exactly when every response is a
failure or lacks one of the `asks`/`bids` keys. -/
theorem firstValidBook_eq_none (responses : List (Option FetchResp)) :
    firstValidBook responses = none ↔
      ∀ r ∈ responses, ∀ fr, r = some fr → ¬(fr.hasAsks = true ∧ fr.hasBids = true) := by
  induction responses with
  | nil => simp [firstValidBook]
  | cons r rest ih =>
    rcases r with _ | fr
    · simpa [firstValidBook] using ih
    · by_cases hv : fr.hasAsks && fr.hasBids
      · simp only [firstValidBook, if_pos hv]
        constructor
        · intro h; cases h
        · intro h
          exact absurd (by simpa using hv) (h (some fr) (by simp) fr rfl)
      · simp only [firstValidBook, if_neg hv]
        rw [ih]
        constructor
        · intro h
          intro x hx fr2 hfr2
          rcases List.mem_cons.mp hx with hx | hx
          · subst hx
            cases hfr2
            simpa [Bool.and_eq_true] using hv
          · exact h x hx fr2 hfr2
        · intro h x hx fr2 hfr2
          exact h x (List.mem_cons_of_mem _ hx) fr2 hfr2

/-- C9: a cached snapshot younger than the TTL (2 time-units) is returned
without a network call and without touching the cache; an empty
instrument id, or a call in which no query-parameter variant yields a
valid book (one with both `asks` and `bids`), returns `none` and leaves
the cache contents unchanged — a failed fetch never evicts a previously
cached value, even an expired one. -/
theorem C9_order_book_cache (tokenId : String) (now : ℚ)
    (cache : List (String × Book × ℚ)) (responses : List (Option FetchResp)) :
    (∀ bt, cache.lookup tokenId = some bt → now - bt.2 < 2 → tokenId ≠ "" →
        fetch_order_book tokenId now cache responses = (some bt.1, cache, false)) ∧
      fetch_order_book "" now cache responses = (none, cache, false) ∧
      ((∀ r ∈ responses, ∀ fr, r = some fr → ¬(fr.hasAsks = true ∧ fr.hasBids = true)) →
        (fetch_order_book tokenId now cache responses).2.1 = cache ∧
          ((fetch_order_book tokenId now cache responses).1 = none ∨
            ∃ bt, cache.lookup tokenId = some bt ∧ now - bt.2 < 2 ∧
              (fetch_order_book tokenId now cache responses).1 = some bt.1)) := by
  refine ⟨?_, by simp [fetch_order_book], ?_⟩
  · intro bt hbt hage hne
    simp [fetch_order_book, hne, hbt, hage]
  · intro hfail
    have hnone : firstValidBook responses = none := (firstValidBook_eq_none responses).mpr hfail
    by_cases hne : tokenId = ""
    · simp [fetch_order_book, hne]
    · rcases hbt : cache.lookup tokenId with _ | bt
      · simp [fetch_order_book, hne, hbt, hnone]
      · by_cases hage : now - bt.2 < 2
        · refine ⟨by simp [fetch_order_book, hne, hbt, hage], Or.inr ⟨bt, rfl, hage, ?_⟩⟩
          simp [fetch_order_book, hne, hbt, hage]
        · simp [fetch_order_book, hne, hbt, hage, hnone]

/-- Witness for `C9_order_book_cache`: a fresh cache entry is served
without a network call. -/
theorem C9_order_book_cache_witness :
    fetch_order_book ("t") 1 [(("t"), ⟨[], []⟩, 0)] [] =
      (some ⟨[], []⟩, [(("t"), ⟨[], []⟩, 0)], false) :=
  (C9_order_book_cache ("t") 1 [(("t"), ⟨[], []⟩, 0)] []).1 (⟨[], []⟩, 0)
    (by rfl) (by norm_num) (by decide)

/-- Witness for `C7_cooldown_check`: the in-window entry at price 0.50
blocks a check at 0.50. -/
theorem C7_cooldown_check_witness :
    (check_trade_cooldown 100 [⟨50, 1/2⟩] (1/2)).1 = false :=
  (C7_cooldown_check 100 (1/2) [⟨50, 1/2⟩]).2.2.1

/-- Witness for `C10_paper_position_invariant`: registering into an empty
map creates the entry; registering over it is discarded. -/
theorem C10_paper_position_invariant_witness :
    (register_paper_position [] ("t") ⟨0, some (1/2), some 5, some 10⟩).lookup ("t") =
      some ⟨0, some (1/2), some 5, some 10⟩ :=
  (C10_paper_position_invariant [] ("t") ⟨0, some (1/2), some 5, some 10⟩ 5 (1/100)
    (fun _ => none)).2.1 (by rfl)

/-! ### Match registry (`matching.py`)

`MatchApprover` keeps three in-memory key sets (`_approved_keys`,
`_pending_keys`, `_rejected_keys`) plus the mtime of the persisted
approvals file.  The persisted file is embedded as `ApprovedFile`:
`unparsable` is a payload raising `json.JSONDecodeError`, while `parsed`
carries the key set the loader extracts (an unexpected-but-parsable
structure extracts the empty set). -/

structure MatchCandidate where
  pinnacle_title : String
  polymarket_title : String
  polymarket_id : String
  score : ℤ
deriving DecidableEq, Repr

/-- `MatchApprover._compose_key` (matching.py lines 108-109). -/
def compose_key (pinnacleTitle polymarketId : String) : String :=
  pinnacleTitle.trim.toLower ++ "::" ++ polymarketId

def candidateKey (c : MatchCandidate) : String :=
  compose_key c.pinnacle_title c.polymarket_id

inductive ApprovedFile
  | absent
  | unparsable (mtime : ℚ)
  | parsed (mtime : ℚ) (keys : Finset String)
deriving DecidableEq

structure RegistryMem where
  approvedKeys : Finset String
  pendingKeys : Finset String
  rejectedKeys : Finset String
  approvedMtime : ℚ
deriving DecidableEq

/-- `MatchApprover._load_approved` (matching.py lines 68-106): a missing
file clears the set; an unchanged mtime is a no-op; a
`json.JSONDecodeError` logs and returns early, leaving both the key set
and the stored mtime untouched; a parsed payload replaces the key set and
advances the mtime. -/
def load_approved (file : ApprovedFile) (s : RegistryMem) : RegistryMem :=
  match file with
  | ApprovedFile.absent => { s with approvedKeys := ∅, approvedMtime := 0 }
  | ApprovedFile.unparsable _ => s
  | ApprovedFile.parsed m keys =>
    if m = s.approvedMtime then s
    else { s with approvedKeys := keys, approvedMtime := m }

/-- `MatchApprover._register_pending` (matching.py lines 126-156), set
effect only: a key already classified anywhere is left alone. -/
def register_pending (s : RegistryMem) (key : String) : RegistryMem :=
  if key ∈ s.approvedKeys ∨ key ∈ s.pendingKeys ∨ key ∈ s.rejectedKeys then s
  else { s with pendingKeys := insert key s.pendingKeys }

/-- `MatchApprover.is_approved` (matching.py lines 114-124). -/
def is_approved (file : ApprovedFile) (s : RegistryMem) (key : String) :
    Bool × RegistryMem :=
  let s1 := load_approved file s
  if key ∈ s1.approvedKeys then (true, s1)
  else if key ∈ s1.rejectedKeys then (false, s1)
  else if key ∉ s1.pendingKeys then (false, register_pending s1 key)
  else (false, s1)

/-- `MatchApprover.approve` (matching.py lines 187-212), in-memory set
effect: the key enters `approved` and is discarded from `pending` and
`rejected`; the stored mtime tracks the rewritten file. -/
def approve (s : RegistryMem) (key : String) (newMtime : ℚ) : RegistryMem :=
  { s with
    approvedKeys := insert key s.approvedKeys
    pendingKeys := s.pendingKeys.erase key
    rejectedKeys := s.rejectedKeys.erase key
    approvedMtime := newMtime }

/-- `MatchApprover.reject` (matching.py lines 214-222): only
`_rejected_keys.add(key)` — no other set is touched. -/
def reject (s : RegistryMem) (key : String) : RegistryMem :=
  { s with rejectedKeys := insert key s.rejectedKeys }

/-- The key of the C3/C5 scenario candidates. -/
def exKey : String := compose_key ("A vs B") ("77")

/-- State after first sighting (auto-enqueue to pending) and then a
reject of the same key. -/
def exRejectedState : RegistryMem :=
  reject (is_approved ApprovedFile.absent ⟨∅, ∅, ∅, 0⟩ exKey).2 exKey

/-- C3 counterexample: a first `is_approved` sighting puts the key into
`pending`; a subsequent `reject` leaves it in `pending` *and* `rejected`,
so the three sets are not pairwise disjoint. -/
theorem C3_reject_not_disjoint_counterexample :
    exKey ∈ exRejectedState.pendingKeys ∧ exKey ∈ exRejectedState.rejectedKeys := by
  constructor
  · simp [exRejectedState, reject, is_approved, load_approved, register_pending]
  · simp [exRejectedState, reject]

/-- C3 amended: `reject` only inserts into `rejected`, leaving `pending`
and `approved` unchanged — a pending key rejected ends up in both
`pending` and `rejected`; `approve` does place the key exclusively in
`approved`; a key is auto-enqueued into `pending` only while unclassified,
and classified keys are never re-enqueued. -/
theorem C3_registry_sets (s : RegistryMem) (key : String) (newMtime : ℚ) :
    ((reject s key).pendingKeys = s.pendingKeys ∧
        (reject s key).approvedKeys = s.approvedKeys ∧
        (reject s key).rejectedKeys = insert key s.rejectedKeys) ∧
      (key ∈ (approve s key newMtime).approvedKeys ∧
        key ∉ (approve s key newMtime).pendingKeys ∧
        key ∉ (approve s key newMtime).rejectedKeys) ∧
      (key ∈ s.pendingKeys →
        key ∈ (reject s key).pendingKeys ∧ key ∈ (reject s key).rejectedKeys) ∧
      ((key ∈ s.approvedKeys ∨ key ∈ s.pendingKeys ∨ key ∈ s.rejectedKeys) →
        register_pending s key = s) ∧
      (¬(key ∈ s.approvedKeys ∨ key ∈ s.pendingKeys ∨ key ∈ s.rejectedKeys) →
        (register_pending s key).pendingKeys = insert key s.pendingKeys ∧
          (register_pending s key).approvedKeys = s.approvedKeys ∧
          (register_pending s key).rejectedKeys = s.rejectedKeys) := by
  refine ⟨⟨rfl, rfl, rfl⟩, ⟨Finset.mem_insert_self _ _, Finset.not_mem_erase _ _,
    Finset.not_mem_erase _ _⟩, ?_, ?_, ?_⟩
  · intro h
    exact ⟨h, by simp [reject]⟩
  · intro h
    simp [register_pending, h]
  · intro h
    simp [register_pending, h]

/-- Witness for `C3_registry_sets`: the concrete pending key stays in both
sets after its reject. -/
theorem C3_registry_sets_witness :
    exKey ∈ (reject (is_approved ApprovedFile.absent ⟨∅, ∅, ∅, 0⟩ exKey).2 exKey).pendingKeys ∧
      exKey ∈ (reject (is_approved ApprovedFile.absent ⟨∅, ∅, ∅, 0⟩ exKey).2 exKey).rejectedKeys :=
  (C3_registry_sets (is_approved ApprovedFile.absent ⟨∅, ∅, ∅, 0⟩ exKey).2 exKey 0).2.2.1
    (by simp [is_approved, load_approved, register_pending])

/-- Registry state after a successful earlier load of one approved key
(mtime 1). -/
def exLoadedReg : RegistryMem := ⟨{exKey}, ∅, ∅, 1⟩

/-- C5 counterexample: when the persisted payload becomes unparsable (its
mtime advanced to 2), the reload keeps the previously loaded approved
set rather than treating it as empty, and the previously approved key is
still reported approved. -/
theorem C5_malformed_keeps_previous_counterexample :
    load_approved (ApprovedFile.unparsable 2) exLoadedReg = exLoadedReg ∧
      (is_approved (ApprovedFile.unparsable 2) exLoadedReg exKey).1 = true ∧
      exLoadedReg.approvedKeys ≠ ∅ := by
  refine ⟨rfl, ?_, ?_⟩
  · simp [is_approved, load_approved, exLoadedReg]
  · simp [exLoadedReg]

/-- C5 amended: an unparsable persisted-approvals payload logs and leaves
the in-memory registry (approved set and stored mtime) unchanged for that
reload cycle: the previously loaded approved set — empty only on a fresh
start — stays in effect, and no key becomes approved on the basis of the
unparsable payload itself. -/
theorem C5_malformed_reload (s : RegistryMem) (m : ℚ) (key : String) :
    load_approved (ApprovedFile.unparsable m) s = s ∧
      (s.approvedKeys = ∅ →
        (is_approved (ApprovedFile.unparsable m) s key).1 = false) ∧
      ((is_approved (ApprovedFile.unparsable m) s key).1 = true →
        key ∈ s.approvedKeys) := by
  refine ⟨rfl, ?_, ?_⟩
  · intro h
    by_cases hr : key ∈ s.rejectedKeys <;> by_cases hp : key ∈ s.pendingKeys <;>
      simp [is_approved, load_approved, h, hr, hp]
  · intro h
    by_contra hmem
    have hfalse : (is_approved (ApprovedFile.unparsable m) s key).1 = false := by
      by_cases hr : key ∈ s.rejectedKeys <;> by_cases hp : key ∈ s.pendingKeys <;>
        simp [is_approved, load_approved, hmem, hr, hp]
    rw [h] at hfalse
    cases hfalse

/-- Witness for `C5_malformed_reload`: a fresh registry with an
unparsable approvals file reports nothing approved. -/
theorem C5_malformed_reload_witness :
    (is_approved (ApprovedFile.unparsable 2) ⟨∅, ∅, ∅, 0⟩ exKey).1 = false :=
  (C5_malformed_reload ⟨∅, ∅, ∅, 0⟩ 2 exKey).2.1 rfl

/-! ### Rate-limited opportunity log (`logging_utils.py` lines 72-145)

`_last_opportunity_state` keeps, per `(mkey, okey)`, the last logged
`{ratio, o_pin, p_yes}` (line 145 always stores all three, so the stored
ratio is never absent).  Keys do not interact, so the embedding carries
the one key's retained state through each call and returns whether a CSV
row was written together with the new retained state. -/

inductive Trigger
  | INFO
  | ARBITRAGE
deriving DecidableEq, Repr

structure OppState where
  ratio : ℚ
  o_pin : ℚ
  p_yes : ℚ
deriving DecidableEq, Repr

/-- `log_opportunity_change` (logging_utils.py lines 75-145), decision and
state effect for one `(mkey, okey)` key: `should_log` is first-record OR
`|ratio - prev_ratio| >= 0.01` OR (elif) a raw-price change, and the
ARBITRAGE cross-up of 1.12 forces it; the retained state is replaced only
when a row is written. -/
def log_opportunity_change (prev : Option OppState) (o_pin p_yes ratio : ℚ)
    (trigger : Trigger) : Bool × Option OppState :=
  match prev with
  | none => (true, some ⟨ratio, o_pin, p_yes⟩)
  | some pv =>
    let deltaBig := decide (|ratio - pv.ratio| ≥ 1/100)
    let priceChanged := decide (o_pin ≠ pv.o_pin) || decide (p_yes ≠ pv.p_yes)
    let crossUp := decide (trigger = Trigger.ARBITRAGE) &&
      decide (pv.ratio < ARB_RATIO_BOUND) && decide (ARB_RATIO_BOUND ≤ ratio)
    let shouldLog := (deltaBig || ((!deltaBig) && priceChanged)) || crossUp
    if shouldLog then (true, some ⟨ratio, o_pin, p_yes⟩) else (false, some pv)

structure LogCall where
  o_pin : ℚ
  p_yes : ℚ
  ratio : ℚ
  trigger : Trigger
deriving DecidableEq, Repr

/-- Number of rows written by a sequence of calls for one key, threading
the retained state. -/
def runLog : List LogCall → Option OppState → Nat
  | [], _ => 0
  | c :: cs, st =>
    let r := log_opportunity_change st c.o_pin c.p_yes c.ratio c.trigger
    (if r.1 then 1 else 0) + runLog cs r.2

/-- The three consecutive ticks of the claim, with raw prices consistent
with ratios 1.00, 1.00, 1.005 at fixed source odds 2.00 (so the third
tick's target price moved from 0.5 to 100/201). -/
def c2ticks : List LogCall :=
  [⟨2, 1/2, 1, Trigger.INFO⟩, ⟨2, 1/2, 1, Trigger.INFO⟩,
    ⟨2, 100/201, 201/200, Trigger.INFO⟩]

/-- Emission characterization for a non-first record. -/
theorem log_emits_iff (pv : OppState) (o_pin p_yes ratio : ℚ) (trigger : Trigger) :
    (log_opportunity_change (some pv) o_pin p_yes ratio trigger).1 = true ↔
      1/100 ≤ |ratio - pv.ratio| ∨ o_pin ≠ pv.o_pin ∨ p_yes ≠ pv.p_yes ∨
        (trigger = Trigger.ARBITRAGE ∧ pv.ratio < ARB_RATIO_BOUND ∧ ARB_RATIO_BOUND ≤ ratio) := by
  have hbool : ∀ (c : Bool) (x y : Option OppState),
      (if c then ((true, x) : Bool × Option OppState) else (false, y)).1 = true ↔ c = true := by
    intro c x y; cases c <;> simp
  rw [log_opportunity_change, hbool]
  simp only [Bool.or_eq_true, Bool.and_eq_true, Bool.not_eq_true', decide_eq_true_eq,
    decide_eq_false_iff_not, ge_iff_le]
  tauto

/-- The retained state is the new triple exactly when a row was written,
otherwise the previous state. -/
theorem log_state_update (prev : Option OppState) (o_pin p_yes ratio : ℚ)
    (trigger : Trigger) :
    (log_opportunity_change prev o_pin p_yes ratio trigger).2 =
      if (log_opportunity_change prev o_pin p_yes ratio trigger).1 then
        some ⟨ratio, o_pin, p_yes⟩
      else prev := by
  rcases prev with _ | pv
  · simp [log_opportunity_change]
  · simp only [log_opportunity_change]
    split_ifs <;> simp_all

/-- The consistent three-tick sequence writes exactly two records. -/
theorem runLog_c2ticks : runLog c2ticks none = 2 := by
  norm_num [runLog, c2ticks, log_opportunity_change, ARB_RATIO_BOUND]

/-- C2 counterexample: the three consecutive calls with ratios 1.00,
1.00, 1.005 and prices consistent with those ratios write two records
(the first, and the third via the raw-price-change rule), not exactly
one. -/
theorem C2_three_ticks_counterexample :
    runLog c2ticks none = 2 ∧ runLog c2ticks none ≠ 1 :=
  ⟨runLog_c2ticks, by rw [runLog_c2ticks]; norm_num⟩

/-- C2 amended: for calls whose ratio is consistent with the raw prices
(`ratio = (1/p_yes)/o_pin`), a record is emitted iff it is the first for
the key, or `|ratio - prev_ratio| >= 0.01`, or a raw price changed, or
the ratio crossed ARB_RATIO_BOUND = 1.12 upward; the retained state is updated
only when a record is emitted; a 1.10 -> 1.13 transition always logs; and
the consistent 1.00, 1.00, 1.005 sequence produces exactly two records
(first and third), not one. -/
theorem C2_rate_limited_logger (prev : Option OppState) (o_pin p_yes ratio : ℚ)
    (trigger : Trigger) (hcons : ratio = 1 / p_yes / o_pin)
    (hconsPrev : ∀ pv, prev = some pv → pv.ratio = 1 / pv.p_yes / pv.o_pin) :
    ((log_opportunity_change prev o_pin p_yes ratio trigger).1 = true ↔
        prev = none ∨
          ∃ pv, prev = some pv ∧
            (1/100 ≤ |ratio - pv.ratio| ∨ o_pin ≠ pv.o_pin ∨ p_yes ≠ pv.p_yes ∨
              (pv.ratio < ARB_RATIO_BOUND ∧ ARB_RATIO_BOUND ≤ ratio))) ∧
      (log_opportunity_change prev o_pin p_yes ratio trigger).2 =
        (if (log_opportunity_change prev o_pin p_yes ratio trigger).1 then
          some ⟨ratio, o_pin, p_yes⟩
        else prev) ∧
      (∀ pv, prev = some pv → pv.ratio = 11/10 → ratio = 113/100 →
        (log_opportunity_change prev o_pin p_yes ratio trigger).1 = true) ∧
      runLog c2ticks none = 2 := by
  refine ⟨?_, log_state_update prev o_pin p_yes ratio trigger, ?_, runLog_c2ticks⟩
  · rcases prev with _ | pv
    · simp [log_opportunity_change]
    · rw [log_emits_iff]
      constructor
      · rintro (h | h | h | ⟨_, h4, h5⟩)
        · exact Or.inr ⟨pv, rfl, Or.inl h⟩
        · exact Or.inr ⟨pv, rfl, Or.inr (Or.inl h)⟩
        · exact Or.inr ⟨pv, rfl, Or.inr (Or.inr (Or.inl h))⟩
        · exact Or.inr ⟨pv, rfl, Or.inr (Or.inr (Or.inr ⟨h4, h5⟩))⟩
      · rintro (h | ⟨pv2, hpv2, h⟩)
        · cases h
        · injection hpv2 with hpv
          subst hpv
          rcases h with h | h | h | ⟨h4, h5⟩
          · exact Or.inl h
          · exact Or.inr (Or.inl h)
          · exact Or.inr (Or.inr (Or.inl h))
          · by_cases h2 : o_pin = pv.o_pin
            · by_cases h3 : p_yes = pv.p_yes
              · exfalso
                have hr : ratio = pv.ratio := by
                  rw [hcons, hconsPrev pv rfl, h2, h3]
                rw [hr] at h5
                exact absurd h4 (not_lt.mpr h5)
              · exact Or.inr (Or.inr (Or.inl h3))
            · exact Or.inr (Or.inl h2)
  · intro pv hpv h110 h113
    subst hpv
    rw [log_emits_iff]
    left
    rw [h110, h113]
    rw [show (113:ℚ)/100 - 11/10 = 3/100 by norm_num]
    rw [abs_of_pos (by norm_num)]
    norm_num

/-- Witness for `C2_rate_limited_logger`: a first record for a key is
always written. -/
theorem C2_rate_limited_logger_witness :
    (log_opportunity_change none 2 (1/2) 1 Trigger.INFO).1 = true :=
  (C2_rate_limited_logger none 2 (1/2) 1 Trigger.INFO (by norm_num)
      (fun pv h => by cases h)).1.mpr (Or.inl rfl)

/-! ### Strategy (`strategy.py`)

The opportunity evaluator.  Feed payloads are embedded post-JSON-parse:
a Polymarket market's encoded array fields are `Option` lists (`none` for
an unparsable payload), prices and odds are rationals, and Python `None`
is `Option.none`. -/

/-- `calculate_decimal_odds(price)` (strategy.py lines 20-29). -/
def calculate_decimal_odds : Option ℚ → Option ℚ
  | none => none
  | some p => if 0 < p ∧ p < 1 then some (1 / p) else none

/-- Lowercased character list of a string (`str.lower()`). -/
def lowerChars (s : String) : List Char :=
  s.toList.map Char.toLower

/-- A Polymarket market object, with the fields
`build_moneyline_from_binary_markets` and `_process_moneyline_market`
read.  `outcomePrices` / `pricesField` / `clobTokenIds` are the JSON
parse results of the corresponding encoded fields (`none` when parsing
raises, which the code catches). -/
structure PMMarket where
  active : Bool
  closed : Bool
  enableOrderBook : Bool
  question : String
  groupItemTitle : String
  outcomePrices : Option (List ℚ)
  pricesField : Option (List ℚ)
  clobTokenIds : Option (List String)
  liquidityNum : ℚ
  id : Option String
deriving DecidableEq, Repr

inductive OutcomeKey
  | home
  | draw
  | away
deriving DecidableEq, Repr

/-- One assembled entry of `build_moneyline_from_binary_markets`. -/
structure BinaryOutcome where
  marketId : Option String
  p_yes : ℚ
  token_id : Option String
  liquidity : ℚ
deriving DecidableEq, Repr

structure Assembled where
  home : Option BinaryOutcome
  draw : Option BinaryOutcome
  away : Option BinaryOutcome
deriving DecidableEq, Repr

/-- The keyword heuristic of strategy.py lines 73-84: `"draw"` keyword;
home/away name containment in the question (or equality with the group
label) plus a `"win"` keyword or group-label equality. -/
def classifyBinaryMarket (homeL awayL : List Char) (m : PMMarket) : Option OutcomeKey :=
  let ql := lowerChars m.question
  let gil := lowerChars m.groupItemTitle
  if containsChunk (("draw").toList) ql || containsChunk (("draw").toList) gil then
    some OutcomeKey.draw
  else if !homeL.isEmpty && (containsChunk homeL ql || homeL == gil) &&
      (containsChunk (("win").toList) ql || homeL == gil) then
    some OutcomeKey.home
  else if !awayL.isEmpty && (containsChunk awayL ql || awayL == gil) &&
      (containsChunk (("win").toList) ql || awayL == gil) then
    some OutcomeKey.away
  else none

/-- strategy.py lines 86-98: `outcomePrices`, falling back to `prices`,
falling back to the empty list. -/
def marketPrices (m : PMMarket) : List ℚ :=
  match m.outcomePrices with
  | some ps => ps
  | none =>
    match m.pricesField with
    | some ps => ps
    | none => []

/-- strategy.py lines 97-112: skip when no prices; gate
`0.001 <= p_yes <= 0.999`; first token id or `None`; `liquidityNum`. -/
def marketEntry (m : PMMarket) : Option BinaryOutcome :=
  match marketPrices m with
  | [] => none
  | p :: _ =>
    if 1/1000 ≤ p ∧ p ≤ 999/1000 then
      some ⟨m.id, p, (m.clobTokenIds.getD []).head?, m.liquidityNum⟩
    else none

/-- `build_moneyline_from_binary_markets(polymarket_event, home, away)`
(strategy.py lines 61-116): scan active order-book-enabled markets,
classify by keyword, keep entries passing the price gate; later markets
overwrite earlier ones for the same key. -/
def build_moneyline_from_binary_markets (markets : List PMMarket)
    (homeName awayName : String) : Assembled :=
  let homeL := lowerChars homeName
  let awayL := lowerChars awayName
  markets.foldl
    (fun acc m =>
      if !m.active || m.closed then acc
      else if !m.enableOrderBook then acc
      else
        match classifyBinaryMarket homeL awayL m with
        | none => acc
        | some k =>
          match marketEntry m with
          | none => acc
          | some e =>
            match k with
            | OutcomeKey.home => { acc with home := some e }
            | OutcomeKey.draw => { acc with draw := some e }
            | OutcomeKey.away => { acc with away := some e })
    ⟨none, none, none⟩

/-- A Pinnacle per-outcome odds entry (an element of the
`_extract_pinnacle_odds` result). -/
structure PinOutcome where
  name : String
  price : Option ℚ
deriving DecidableEq, Repr

/-- A Polymarket event as consumed by the binary-markets fallback. -/
structure PMEvent where
  id : Option String
  title : Option String
  markets : List PMMarket
deriving DecidableEq, Repr

/-- Result of running a Python coroutine body: either its value or the
exception that escapes it. -/
inductive PyResult (α : Type)
  | ok (a : α)
  | exn (msg : String)
deriving DecidableEq, Repr

/-- `_process_binary_markets(state, pin_event_id, pin_title,
pin_odds_list, pm_event)` (strategy.py lines 312-348).  Its first
statement is `home_name = pin_event.get("homeName")`, but `pin_event` is
not among the function's parameters (`state`, `pin_event_id`,
`pin_title`, `pin_odds_list`, `pm_event`) and is bound neither at module
level nor in any enclosing scope, so evaluating the body raises
`NameError` before any market is examined. -/
def process_binary_markets (_pinEventId _pinTitle : String)
    (_pinOddsList : List PinOutcome) (_pmEvent : PMEvent) : PyResult Unit :=
  PyResult.exn ("NameError: name pin_event is not defined")

/-- Python truthiness of an optional string (`None` and `""` are falsy). -/
def optStrTruthy : Option String → Bool
  | none => false
  | some s => !s.isEmpty

/-- `avail_usd_at_th` as computed in `_evaluate_opportunity` (strategy.py
lines 371-379): `None` while no token id is given (the depth check is
then skipped); `0` when the book fetch failed; the ask-depth summary
up to the threshold price otherwise (`None` again when no ask level
qualifies). -/
def avail_usd_at_th (token_id : Option String) (book : Option Book)
    (thresholdPrice : ℚ) : Option ℚ :=
  if optStrTruthy token_id then
    match book with
    | some b =>
      match summarize_liquidity_to_price b thresholdPrice with
      | some suw => some suw.2.1
      | none => none
    | none => some 0
  else none

/-- strategy.py lines 416-423: the threshold-depth veto,
`avail_usd_at_th is not None and avail_usd_at_th < bet_amount`. -/
def depth_check_blocks (token_id : Option String) (book : Option Book)
    (thresholdPrice bet : ℚ) : Bool :=
  match avail_usd_at_th token_id book thresholdPrice with
  | some u => decide (u < bet)
  | none => false

structure EvalEnv where
  now : ℚ
  bet_amount_usd : ℚ
  sell_mode : String
deriving DecidableEq, Repr

structure TradeIntent where
  token_id : Option String
  market_id : Option String
  price : ℚ
  shares : Option ℚ
deriving DecidableEq, Repr

structure EvalRecord where
  trigger : Trigger
  ratio : ℚ
  p_yes : ℚ
deriving DecidableEq, Repr

structure EvalOutcome where
  records : List EvalRecord
  paperRegistered : Bool
  gatewayInvoked : Option TradeIntent
deriving DecidableEq, Repr

/-- `_evaluate_opportunity` (strategy.py lines 351-477) for one outcome.
Inputs mirror the Python parameters; `book` is the `fetch_order_book`
result for the token and `trades` the cooldown list under the outcome's
cooldown key.  `records` collects the opportunity records handed to the
rate-limited logger in order (INFO scan record, then the ARBITRAGE
record when the trigger fires); `paperRegistered` is the
`register_paper_position` call, `gatewayInvoked` the
`place_polymarket_trade` call with its trade intent. -/
def evaluate_opportunity (env : EvalEnv) (o_pin o_pm polymarket_price : Option ℚ)
    (token_id : Option String) (liquidity : ℚ) (market_id : Option String)
    (book : Option Book) (trades : List CoolEntry) : EvalOutcome :=
  match o_pin, o_pm, polymarket_price with
  | some op, some opm, some p =>
    if op = 0 ∨ opm = 0 then ⟨[], false, none⟩
    else
      let ratio := opm / op
      let infoRec : EvalRecord := ⟨Trigger.INFO, ratio, p⟩
      if ¬(ratio ≠ 0 ∧ ARB_RATIO_BOUND ≤ ratio) then ⟨[infoRec], false, none⟩
      else if (check_trade_cooldown env.now trades p).1 = false then ⟨[infoRec], false, none⟩
      else if liquidity < env.bet_amount_usd then ⟨[infoRec], false, none⟩
      else if depth_check_blocks token_id book (1 / (op * ARB_RATIO_BOUND)) env.bet_amount_usd then
        ⟨[infoRec], false, none⟩
      else
        let arbRec : EvalRecord := ⟨Trigger.ARBITRAGE, ratio, p⟩
        let shares : Option ℚ := if p = 0 then none else some (env.bet_amount_usd / p)
        let intent : TradeIntent := ⟨token_id, market_id, p, shares⟩
        if (env.sell_mode = "paper" ∨ env.sell_mode = "both") ∧ optStrTruthy token_id then
          if env.sell_mode = "paper" then ⟨[infoRec, arbRec], true, none⟩
          else ⟨[infoRec, arbRec], true, some intent⟩
        else ⟨[infoRec, arbRec], false, some intent⟩
  | _, _, _ => ⟨[], false, none⟩

/-- C4: the spec promises the binary-markets fallback skips a missing
datum and never aborts the tick, but `_process_binary_markets` reads the
name `pin_event`, which is unbound in its scope: every call raises
`NameError` before any outcome is examined, and the exception propagates
uncaught into `run_strategy`. -/
theorem C4_binary_markets_name_error (pinEventId pinTitle : String)
    (pinOddsList : List PinOutcome) (pmEvent : PMEvent) :
    process_binary_markets pinEventId pinTitle pinOddsList pmEvent =
        PyResult.exn ("NameError: name pin_event is not defined") ∧
      ∀ u : Unit, process_binary_markets pinEventId pinTitle pinOddsList pmEvent ≠
        PyResult.ok u := by
  exact ⟨rfl, fun u h => by cases h⟩

/-- Every entry `marketEntry` accepts passed the `[0.001, 0.999]` price
gate. -/
theorem marketEntry_price_gate (m : PMMarket) (e : BinaryOutcome)
    (h : marketEntry m = some e) : 1/1000 ≤ e.p_yes ∧ e.p_yes ≤ 999/1000 := by
  unfold marketEntry at h
  rcases hp : marketPrices m with _ | ⟨p, ps⟩
  · rw [hp] at h; cases h
  · rw [hp] at h
    have h2 : (if 1/1000 ≤ p ∧ p ≤ 999/1000 then
        some (⟨m.id, p, (m.clobTokenIds.getD []).head?, m.liquidityNum⟩ : BinaryOutcome)
      else none) = some e := h
    by_cases hg : 1/1000 ≤ p ∧ p ≤ 999/1000
    · rw [if_pos hg] at h2
      cases h2
      exact hg
    · rw [if_neg hg] at h2
      cases h2

/-- The price gate holds for an `Assembled` field. -/
def gateOk : Option BinaryOutcome → Prop
  | none => True
  | some e => 1/1000 ≤ e.p_yes ∧ e.p_yes ≤ 999/1000

/-- One fold step of `build_moneyline_from_binary_markets`. -/
def bmStep (homeL awayL : List Char) (acc : Assembled) (m : PMMarket) : Assembled :=
  if !m.active || m.closed then acc
  else if !m.enableOrderBook then acc
  else
    match classifyBinaryMarket homeL awayL m with
    | none => acc
    | some k =>
      match marketEntry m with
      | none => acc
      | some e =>
        match k with
        | OutcomeKey.home => { acc with home := some e }
        | OutcomeKey.draw => { acc with draw := some e }
        | OutcomeKey.away => { acc with away := some e }

theorem bmStep_gate (homeL awayL : List Char) (acc : Assembled) (m : PMMarket)
    (hh : gateOk acc.home) (hd : gateOk acc.draw) (ha : gateOk acc.away) :
    gateOk (bmStep homeL awayL acc m).home ∧ gateOk (bmStep homeL awayL acc m).draw ∧
      gateOk (bmStep homeL awayL acc m).away := by
  unfold bmStep
  split_ifs with h1 h2
  · exact ⟨hh, hd, ha⟩
  · exact ⟨hh, hd, ha⟩
  · rcases hk : classifyBinaryMarket homeL awayL m with _ | k
    · exact ⟨hh, hd, ha⟩
    · rcases he : marketEntry m with _ | e
      · exact ⟨hh, hd, ha⟩
      · have hge := marketEntry_price_gate m e he
        cases k
        · exact ⟨hge, hd, ha⟩
        · exact ⟨hh, hge, ha⟩
        · exact ⟨hh, hd, hge⟩

theorem build_moneyline_gate_aux (homeL awayL : List Char) :
    ∀ (markets : List PMMarket) (acc : Assembled),
      gateOk acc.home → gateOk acc.draw → gateOk acc.away →
        gateOk (markets.foldl (bmStep homeL awayL) acc).home ∧
          gateOk (markets.foldl (bmStep homeL awayL) acc).draw ∧
          gateOk (markets.foldl (bmStep homeL awayL) acc).away := by
  intro markets
  induction markets with
  | nil => intro acc hh hd ha; exact ⟨hh, hd, ha⟩
  | cons m ms ih =>
    intro acc hh hd ha
    have hstep := bmStep_gate homeL awayL acc m hh hd ha
    simpa [List.foldl_cons] using
      ih (bmStep homeL awayL acc m) hstep.1 hstep.2.1 hstep.2.2

/-- `build_moneyline_from_binary_markets` written via `bmStep`. -/
theorem build_moneyline_eq_foldl (markets : List PMMarket) (homeName awayName : String) :
    build_moneyline_from_binary_markets markets homeName awayName =
      markets.foldl (bmStep (lowerChars homeName) (lowerChars awayName))
        ⟨none, none, none⟩ := rfl

/-- Every entry assembled from binary markets satisfies the
`[0.001, 0.999]` price gate. -/
theorem build_moneyline_price_gate (markets : List PMMarket) (homeName awayName : String)
    (e : BinaryOutcome)
    (h : (build_moneyline_from_binary_markets markets homeName awayName).home = some e ∨
      (build_moneyline_from_binary_markets markets homeName awayName).draw = some e ∨
      (build_moneyline_from_binary_markets markets homeName awayName).away = some e) :
    1/1000 ≤ e.p_yes ∧ e.p_yes ≤ 999/1000 := by
  have haux := build_moneyline_gate_aux (lowerChars homeName) (lowerChars awayName)
    markets ⟨none, none, none⟩ trivial trivial trivial
  rw [build_moneyline_eq_foldl] at h
  rcases h with h | h | h
  · have := haux.1; rw [h] at this; exact this
  · have := haux.2.1; rw [h] at this; exact this
  · have := haux.2.2; rw [h] at this; exact this

/-- The evaluated outcome of the C1 scenario: source odds 2.00, target
price 0.0005 from the moneyline path (odds derived by
`calculate_decimal_odds`), no token id, declared liquidity 100, bet 5,
live mode, empty cooldown history. -/
def c1eval : EvalOutcome :=
  evaluate_opportunity ⟨0, 5, ("live")⟩ (some 2) (calculate_decimal_odds (some (1/2000)))
    (some (1/2000)) none 100 (some ("m")) none []

/-- C1 counterexample: a target price of 0.0005 — outside
`[0.001, 0.999]` but inside `(0, 1)` — reaches both the
ARBITRAGE-classified record and the Execution Gateway, because
`_evaluate_opportunity` never checks the `[0.001, 0.999]` bounds (the
gate exists only in the binary-markets assembly): ratio
`2000/2 = 1000 ≥ 1.12`, cooldown passes, liquidity `100 ≥ 5`, and with no
token id the threshold-depth check is skipped. -/
theorem C1_price_gate_counterexample :
    c1eval.gatewayInvoked = some ⟨none, some ("m"), 1/2000, some 10000⟩ ∧
      (⟨Trigger.ARBITRAGE, 1000, 1/2000⟩ : EvalRecord) ∈ c1eval.records ∧
      ¬((1:ℚ)/1000 ≤ 1/2000) := by
  refine ⟨?_, ?_, by norm_num⟩ <;>
    norm_num [c1eval, evaluate_opportunity, calculate_decimal_odds, ARB_RATIO_BOUND,
      check_trade_cooldown, pruneTrades, avail_usd_at_th, depth_check_blocks, optStrTruthy,
      List.all, List.filter]

/-- C1 amended: the evaluator emits an ARBITRAGE-classified record and
invokes the Execution Gateway only when all present: source odds and
derived target odds nonzero, `ratio = o_pm/o_pin >= ARB_RATIO_BOUND (1.12)`,
the cooldown check passes, declared liquidity `>=` bet size, and the
threshold-depth figure, *whenever one is available*, `>=` bet size (with
no token id the depth figure is `None` and the check is skipped); the
trade intent carries share count `bet_usd / price`.  The target price is
constrained only to `(0, 1)` (via `calculate_decimal_odds`); the
`[0.001, 0.999]` gate exists solely in the binary-markets assembly, so
moneyline-path prices outside `[0.001, 0.999]` can reach the ARBITRAGE
record and the gateway. -/
theorem C1_arbitrage_gate (env : EvalEnv) (o_pin o_pm price : Option ℚ)
    (token_id : Option String) (liquidity : ℚ) (market_id : Option String)
    (book : Option Book) (trades : List CoolEntry)
    (h : (∃ rec ∈ (evaluate_opportunity env o_pin o_pm price token_id liquidity market_id
          book trades).records, rec.trigger = Trigger.ARBITRAGE) ∨
        (evaluate_opportunity env o_pin o_pm price token_id liquidity market_id
            book trades).gatewayInvoked.isSome = true) :
    (∃ op opm p, o_pin = some op ∧ o_pm = some opm ∧ price = some p ∧
        op ≠ 0 ∧ opm ≠ 0 ∧ ARB_RATIO_BOUND ≤ opm / op ∧
        (check_trade_cooldown env.now trades p).1 = true ∧
        env.bet_amount_usd ≤ liquidity ∧
        (∀ u, avail_usd_at_th token_id book (1 / (op * ARB_RATIO_BOUND)) = some u →
          env.bet_amount_usd ≤ u) ∧
        (∀ ti, (evaluate_opportunity env o_pin o_pm price token_id liquidity market_id
            book trades).gatewayInvoked = some ti →
          ti = ⟨token_id, market_id, p,
            if p = 0 then none else some (env.bet_amount_usd / p)⟩)) ∧
      (o_pm = calculate_decimal_odds price → ∃ p, price = some p ∧ 0 < p ∧ p < 1) := by
  rcases o_pin with _ | op
  · simp [evaluate_opportunity] at h
  rcases o_pm with _ | opm
  · rcases price with _ | p <;> simp [evaluate_opportunity] at h
  rcases price with _ | p
  · simp [evaluate_opportunity] at h
  by_cases hc1 : op = 0 ∨ opm = 0
  · have hE : evaluate_opportunity env (some op) (some opm) (some p) token_id liquidity
        market_id book trades = ⟨[], false, none⟩ := by
      simp only [evaluate_opportunity]
      rw [if_pos hc1]
    rw [hE] at h
    simp at h
  by_cases hc2 : opm / op ≠ 0 ∧ ARB_RATIO_BOUND ≤ opm / op
  · by_cases hc3 : (check_trade_cooldown env.now trades p).1 = false
    · have hE : evaluate_opportunity env (some op) (some opm) (some p) token_id liquidity
          market_id book trades = ⟨[⟨Trigger.INFO, opm / op, p⟩], false, none⟩ := by
        simp only [evaluate_opportunity]
        rw [if_neg hc1, if_neg (not_not_intro hc2), if_pos hc3]
      rw [hE] at h
      simp at h
    · by_cases hc4 : liquidity < env.bet_amount_usd
      · have hE : evaluate_opportunity env (some op) (some opm) (some p) token_id liquidity
            market_id book trades = ⟨[⟨Trigger.INFO, opm / op, p⟩], false, none⟩ := by
          simp only [evaluate_opportunity]
          rw [if_neg hc1, if_neg (not_not_intro hc2), if_neg hc3, if_pos hc4]
        rw [hE] at h
        simp at h
      · by_cases hc5 : depth_check_blocks token_id book (1 / (op * ARB_RATIO_BOUND))
            env.bet_amount_usd = true
        · have hE : evaluate_opportunity env (some op) (some opm) (some p) token_id liquidity
              market_id book trades = ⟨[⟨Trigger.INFO, opm / op, p⟩], false, none⟩ := by
            simp only [evaluate_opportunity]
            rw [if_neg hc1, if_neg (not_not_intro hc2), if_neg hc3, if_neg hc4, if_pos hc5]
          rw [hE] at h
          simp at h
        · have hE : evaluate_opportunity env (some op) (some opm) (some p) token_id liquidity
              market_id book trades =
              (if (env.sell_mode = ("paper") ∨ env.sell_mode = ("both")) ∧
                  optStrTruthy token_id = true then
                if env.sell_mode = ("paper") then
                  ⟨[⟨Trigger.INFO, opm / op, p⟩, ⟨Trigger.ARBITRAGE, opm / op, p⟩], true, none⟩
                else
                  ⟨[⟨Trigger.INFO, opm / op, p⟩, ⟨Trigger.ARBITRAGE, opm / op, p⟩], true,
                    some ⟨token_id, market_id, p,
                      if p = 0 then none else some (env.bet_amount_usd / p)⟩⟩
              else
                ⟨[⟨Trigger.INFO, opm / op, p⟩, ⟨Trigger.ARBITRAGE, opm / op, p⟩], false,
                  some ⟨token_id, market_id, p,
                    if p = 0 then none else some (env.bet_amount_usd / p)⟩⟩) := by
            simp only [evaluate_opportunity]
            rw [if_neg hc1, if_neg (not_not_intro hc2), if_neg hc3, if_neg hc4, if_neg hc5]
          push_neg at hc1
          constructor
          · refine ⟨op, opm, p, rfl, rfl, rfl, hc1.1, hc1.2, hc2.2,
              by simpa [Bool.not_eq_false] using hc3, not_lt.mp hc4, ?_, ?_⟩
            · intro u hu
              have : decide (u < env.bet_amount_usd) = false := by
                by_contra hcon
                exact hc5 (by
                  simp only [depth_check_blocks, hu]
                  simpa [Bool.not_eq_false] using hcon)
              simpa [decide_eq_false_iff_not, not_lt] using this
            · intro ti hti
              rw [hE] at hti
              by_cases hm1 : (env.sell_mode = ("paper") ∨ env.sell_mode = ("both")) ∧
                  optStrTruthy token_id = true
              · rw [if_pos hm1] at hti
                by_cases hm2 : env.sell_mode = ("paper")
                · rw [if_pos hm2] at hti
                  cases hti
                · rw [if_neg hm2] at hti
                  injection hti with hti
                  exact hti.symm
              · rw [if_neg hm1] at hti
                injection hti with hti
                exact hti.symm
          · intro hodds
            by_cases hrange : 0 < p ∧ p < 1
            · exact ⟨p, rfl, hrange⟩
            · rw [show calculate_decimal_odds (some p) = none by
                simp [calculate_decimal_odds, hrange]] at hodds
              cases hodds
  · by_cases hc3 : op = 0 ∨ opm = 0
    · exact absurd hc3 hc1
    · have hE : evaluate_opportunity env (some op) (some opm) (some p) token_id liquidity
          market_id book trades = ⟨[⟨Trigger.INFO, opm / op, p⟩], false, none⟩ := by
        simp only [evaluate_opportunity]
        rw [if_neg hc1, if_pos hc2]
      rw [hE] at h
      simp at h

/-- Witness for `C1_arbitrage_gate`: in the live-mode scenario that
invokes the gateway, the target price is confirmed to lie in `(0, 1)`. -/
theorem C1_arbitrage_gate_witness :
    ∃ p, (some (1/2000 : ℚ)) = some p ∧ 0 < p ∧ p < 1 :=
  (C1_arbitrage_gate ⟨0, 5, ("live")⟩ (some 2) (calculate_decimal_odds (some (1/2000)))
      (some (1/2000)) none 100 (some ("m")) none []
      (Or.inr (by
        norm_num [evaluate_opportunity, calculate_decimal_odds, ARB_RATIO_BOUND,
          check_trade_cooldown, pruneTrades, avail_usd_at_th, depth_check_blocks,
          optStrTruthy, List.all, List.filter]))).2 rfl

end PolyPin
